import Mathlib

/-!
Verification development for the zendriver repository (CDP browser driver).

We give a shallow embedding of the pieces of the code that the checked
properties talk about:

* `scripts/generate_cdp.py` — the CDP schema loader / code generator
  (version gate, name mapping, upstream-spec patch table, and the
  semantics of the *generated* `to_json` / `from_json` / command code);
* `zendriver/core/tab.py` — selector queries with stale-node retry,
  text search with text-node replacement, best-match selection;
* `zendriver/core/element.py` — element handle equality, the attribute
  map built from the flat CDP attribute list, and `Element.get`.

Python values that matter here are modelled as: strings as `String`,
ints as `Nat`, JSON trees as an inductive `JVal`, `None` as `Option`,
raised exceptions as `Except` / explicit error constructors.
-/

namespace Zendriver

/-- A JSON value, the wire representation used by the generated CDP code
(`T_JSON_DICT` trees). -/
inductive JVal where
  | null : JVal
  | bool (b : Bool) : JVal
  | num (n : Int) : JVal
  | str (s : String) : JVal
  | arr (elems : List JVal) : JVal
  | obj (fields : List (String × JVal)) : JVal

/-- Lookup in a JSON object's field list, Python-`dict` style: a later
binding for the same key overwrites an earlier one, so the *last*
occurrence wins. -/
def dictGet (fields : List (String × JVal)) (key : String) : Option JVal :=
  (fields.reverse.find? (fun kv => kv.1 = key)).map (fun kv => kv.2)

/-! ## Element handle equality (`element.py`, `Element.__eq__`)

An element handle carries a backend node id (an `int`, CDP
`BackendNodeId`; the code tests it for Python truthiness, so `0` counts
as undefined) and a reference to the tab (session) it belongs to.  Only
the fields that `__eq__` could consult are modelled. -/

structure MElem where
  backendNodeId : Nat
  tabId : Nat
deriving DecidableEq, Repr

/-- `Element.__eq__` from `element.py`: both backend node ids must be
truthy (non-zero) and equal; the tab is never consulted. -/
def elemEq (self other : MElem) : Bool :=
  if other.backendNodeId ≠ 0 ∧ self.backendNodeId ≠ 0 then
    decide (other.backendNodeId = self.backendNodeId)
  else
    false

/-! ## Attribute map and `Element.get` (`element.py`)

`Element._make_attrs` unflattens the CDP `attributes` array
`[k1, v1, k2, v2, …]` into the `attrs` dict, renaming the key `class`
to `class_`.  `Element.get(name)` looks the name up in `attrs` and
returns `None` unless the stored value is truthy. -/

/-- One step of `_make_attrs`: consume a key (renaming `class`) and the
following value; `if sav:` skips the assignment when the key is the
empty string (falsy). -/
def makeAttrs : List String → List (String × String)
  | [] => []
  | [_] => []
  | k :: v :: rest =>
      let k' := if k = "class" then "class_" else k
      if k' = "" then makeAttrs rest else (k', v) :: makeAttrs rest

/-- Lookup in the attrs dict (last assignment for a key wins, as for a
Python dict). -/
def attrsGet (attrs : List (String × String)) (name : String) : Option String :=
  (attrs.reverse.find? (fun kv => kv.1 = name)).map (fun kv => kv.2)

/-- `Element.get`: `x = getattr(self.attrs, name, None); return x if x
else None` — a falsy (empty-string) attribute value is reported as
absent. -/
def elementGet (attrs : List (String × String)) (name : String) : Option String :=
  match attrsGet attrs name with
  | none => none
  | some v => if v = "" then none else some v

/-! ## Name mapping (`generate_cdp.py`: `is_builtin`, `snake_case`)

`snake_case` converts a CDP name with `inflection.underscore` and then
appends an underscore when the converted name would shadow a Python
*builtin* (an attribute of the `builtins` module — Python *keywords*
such as `class` are not attributes of `builtins` and are left alone). -/

/-- The attribute names of CPython's `builtins` module, the set probed by
`is_builtin` via `getattr(builtins, name)`. -/
def pythonBuiltins : List String :=
  ["ArithmeticError", "AssertionError", "AttributeError", "BaseException",
   "BaseExceptionGroup", "BlockingIOError", "BrokenPipeError", "BufferError",
   "BytesWarning", "ChildProcessError", "ConnectionAbortedError",
   "ConnectionError", "ConnectionRefusedError", "ConnectionResetError",
   "DeprecationWarning", "EOFError", "Ellipsis", "EncodingWarning",
   "EnvironmentError", "Exception", "ExceptionGroup", "False",
   "FileExistsError", "FileNotFoundError", "FloatingPointError",
   "FutureWarning", "GeneratorExit", "IOError", "ImportError",
   "ImportWarning", "IndentationError", "IndexError", "InterruptedError",
   "IsADirectoryError", "KeyError", "KeyboardInterrupt", "LookupError",
   "MemoryError", "ModuleNotFoundError", "NameError", "None",
   "NotADirectoryError", "NotImplemented", "NotImplementedError", "OSError",
   "OverflowError", "PendingDeprecationWarning", "PermissionError",
   "ProcessLookupError", "RecursionError", "ReferenceError",
   "ResourceWarning", "RuntimeError", "RuntimeWarning",
   "StopAsyncIteration", "StopIteration", "SyntaxError", "SyntaxWarning",
   "SystemError", "SystemExit", "TabError", "TimeoutError", "True",
   "TypeError", "UnboundLocalError", "UnicodeDecodeError",
   "UnicodeEncodeError", "UnicodeError", "UnicodeTranslateError",
   "UnicodeWarning", "UserWarning", "ValueError", "Warning",
   "ZeroDivisionError", "__build_class__", "__debug__", "__doc__",
   "__import__", "__loader__", "__name__", "__package__", "__spec__",
   "abs", "aiter", "all", "anext", "any", "ascii", "bin", "bool",
   "breakpoint", "bytearray", "bytes", "callable", "chr", "classmethod",
   "compile", "complex", "copyright", "credits", "delattr", "dict", "dir",
   "divmod", "enumerate", "eval", "exec", "exit", "filter", "float",
   "format", "frozenset", "getattr", "globals", "hasattr", "hash", "help",
   "hex", "id", "input", "int", "isinstance", "issubclass", "iter", "len",
   "license", "list", "locals", "map", "max", "memoryview", "min", "next",
   "object", "oct", "open", "ord", "pow", "print", "property", "quit",
   "range", "repr", "reversed", "round", "set", "setattr", "slice",
   "sorted", "staticmethod", "str", "sum", "super", "tuple", "type",
   "vars", "zip"]

/-- `is_builtin(name)`: `getattr(builtins, name)` succeeds. -/
def isBuiltin (name : String) : Bool :=
  pythonBuiltins.contains name

def isAsciiUpper (c : Char) : Bool := 'A' ≤ c && c ≤ 'Z'
def isAsciiLower (c : Char) : Bool := 'a' ≤ c && c ≤ 'z'
def isAsciiDigit (c : Char) : Bool := '0' ≤ c && c ≤ '9'

/-- Character-level model of `inflection.underscore`'s two substitution
passes: an underscore is inserted before an uppercase letter that either
follows a lowercase letter or digit (second pass,
`([a-z\d])([A-Z])`), or follows an uppercase letter and is itself
followed by a lowercase letter (first pass, `([A-Z]+)([A-Z][a-z])`).
The first argument is the previous character of the input, if any. -/
def underscoreGo : Option Char → List Char → List Char
  | _, [] => []
  | prev, c :: rest =>
      let ins : Bool :=
        match prev with
        | none => false
        | some p =>
            isAsciiUpper c &&
              ((isAsciiLower p || isAsciiDigit p) ||
                (isAsciiUpper p &&
                  (match rest with
                   | n :: _ => isAsciiLower n
                   | [] => false)))
      (if ins then ['_', c] else [c]) ++ underscoreGo (some c) rest

/-- `inflection.underscore`: camel case to snake case, then
`.replace("-", "_")` and `.lower()`. -/
def underscore (word : String) : String :=
  ⟨(underscoreGo none word.data).map
      (fun c => if c = '-' then '_' else c.toLower)⟩

/-- `snake_case` from `generate_cdp.py`: underscore the name and append
`_` when the result shadows a Python builtin. -/
def snakeCase (name : String) : String :=
  let name := underscore name
  if isBuiltin name then name ++ "_" else name

/-! ## Generated command / codec semantics (`generate_cdp.py`)

`CdpProperty.generate_to_json` emits, for each property or parameter,
one of four encoding expressions depending on the property's shape:
`[i.to_json() for i in x]` (items with a `$ref`), `[i for i in x]`
(items without), `x.to_json()` (a `$ref`), or `x` (plain).  We model
the caller-supplied Python value together with its shape as `PyArg`;
`encodeArg` is the wire value the emitted expression produces. -/

/-- A Python argument value as the generated code sees it.  `absent` is
Python `None`; the other constructors carry the wire form their
`generate_to_json` branch evaluates to. -/
inductive PyArg where
  | absent : PyArg
  | prim (j : JVal) : PyArg
  | typed (wire : JVal) : PyArg
  | listPrim (js : List JVal) : PyArg
  | listTyped (wires : List JVal) : PyArg

def PyArg.isAbsent : PyArg → Bool
  | .absent => true
  | _ => false

/-- The wire value produced by the emitted encoding expression
(`absent` only reaches this in the plain-value branch, where Python
would serialize `None` as JSON `null`). -/
def encodeArg : PyArg → JVal
  | .absent => .null
  | .prim j => j
  | .typed w => w
  | .listPrim js => .arr js
  | .listTyped ws => .arr ws

/-- A property or command parameter as the emission code sees it: its
original CDP name and whether it is optional. -/
structure PropSpec where
  name : String
  optional : Bool
deriving DecidableEq, Repr

/-- The dict built by the sequence of `generate_to_json` assignments
(in the order the properties are iterated): a required property is
always assigned `dict['name'] = <encoding>`; an optional one is guarded
by `if <value> is not None:`. -/
def buildParams : List PropSpec → List PyArg → List (String × JVal)
  | [], _ => []
  | _, [] => []
  | p :: ps, v :: vs =>
      if p.optional then
        if v.isAbsent then buildParams ps vs
        else (p.name, encodeArg v) :: buildParams ps vs
      else (p.name, encodeArg v) :: buildParams ps vs

/-- A CDP request frame as yielded by generated command code:
`{'method': 'Domain.name', 'params': params}`, where the `'params'`
entry is emitted only when the command declares parameters. -/
structure Request where
  method : String
  params : Option (List (String × JVal))

/-- A CDP command: owning domain, name, parameter list (schema order). -/
structure Command where
  domain : String
  name : String
  parameters : List PropSpec

/-- The sequence of requests a generated command coroutine yields before
returning (`CdpCommand.generate_code` emits a single
`json = yield cmd_dict`), given the caller's arguments in schema
order.  The `params` assignments iterate `self.parameters` in schema
order; `'params'` is included in `cmd_dict` iff the command has
parameters. -/
def commandYields (c : Command) (args : List PyArg) : List Request :=
  [{ method := c.domain ++ "." ++ c.name,
     params :=
       if c.parameters.isEmpty then none
       else some (buildParams c.parameters args) }]

/-- `CdpProperty.generate_from_json` for one property of a generated
`from_json` classmethod, reading from the wire dict `json`:
a required property evaluates `<decode>(json['name'])` (a missing key
raises `KeyError`); an optional property evaluates
`<decode>(json['name']) if json.get('name', None) is not None else
None`, so a key that is missing *or present with value `null`* yields
Python `None`.  Decoding of the value itself is the identity on wire
values in this model. -/
def propFromJson (p : PropSpec) (json : List (String × JVal)) :
    Except String (Option JVal) :=
  if p.optional then
    match dictGet json p.name with
    | none => .ok none
    | some .null => .ok none
    | some v => .ok (some v)
  else
    match dictGet json p.name with
    | none => .error "KeyError"
    | some v => .ok (some v)

/-! ## Schema loader version gate (`generate_cdp.py`, `parse`)

`parse` loads the JSON document, reads `schema["version"]`, and runs
`assert (version["major"], version["minor"]) == ("1", "3")` *before*
constructing any domain objects.  The CDP schema's version fields are
JSON strings.  A failing assert is modelled as `Except.error`. -/

structure SchemaVersion where
  major : String
  minor : String
deriving DecidableEq, Repr

/-! ## Parsed domain objects (`CdpDomain.from_json` and friends)

Only the fields that the version gate and the patch table
(`fix_protocol_spec`) touch are carried: a property or parameter keeps
its name, `$ref` and `optional` flag; an event keeps its name and
description; a type keeps its id and properties; a command keeps its
name and parameters; a domain keeps its name and the three
collections. -/

structure GProp where
  name : String
  ref : Option String
  optional : Bool
deriving DecidableEq, Repr

structure GType where
  id : String
  properties : List GProp
deriving DecidableEq, Repr

structure GCommand where
  name : String
  parameters : List GProp
deriving DecidableEq, Repr

structure GEvent where
  name : String
  description : Option String
deriving DecidableEq, Repr

structure GDomain where
  domain : String
  types : List GType
  commands : List GCommand
  events : List GEvent
deriving DecidableEq, Repr

/-- A loaded CDP schema document: its declared version and its domain
list. -/
structure SchemaDoc where
  version : SchemaVersion
  domains : List GDomain
deriving DecidableEq, Repr

/-- `parse` from `generate_cdp.py`: assert the version is `("1", "3")`
(both strings in the schema), then build the domain objects; a failing
assert aborts before any domain object is produced. -/
def parse (doc : SchemaDoc) : Except String (List GDomain) :=
  if doc.version.major = "1" ∧ doc.version.minor = "3" then
    .ok doc.domains
  else
    .error "AssertionError: version mismatch"

/-! ## The upstream-spec patch table (`fix_protocol_spec`) -/

/-- Apply `f` to the element at the given index, leaving other elements
unchanged (`cmd.parameters[1].ref = ...`; Python would raise
`IndexError` on a shorter list, which cannot happen for the schema's
`resolveNode`, so the out-of-range case is modelled as a no-op). -/
def modifyIdx (f : α → α) : Nat → List α → List α
  | _, [] => []
  | 0, x :: xs => f x :: xs
  | n + 1, x :: xs => x :: modifyIdx f n xs

/-- Apply `f` to the first element satisfying `p` and stop — the
`for ... if ...: <mutate>; break` pattern used by the patches. -/
def patchFirst (p : α → Bool) (f : α → α) : List α → List α
  | [] => []
  | x :: xs => if p x then f x :: xs else x :: patchFirst p f xs

/-- Python's `descr.replace(chr(96), "")`: delete every backtick. -/
def stripBackticks (s : String) : String :=
  ⟨s.data.filter (fun c => c ≠ Char.ofNat 96)⟩

/-- Patch 1: in domain `DOM`, the first command named `resolveNode` has
its second parameter's `$ref` rewritten to `BackendNodeId`. -/
def patchResolveNode (c : GCommand) : GCommand :=
  { c with parameters :=
      (modifyIdx (fun q => { q with ref := some "BackendNodeId" }) 1
        c.parameters) }

/-- Patch 2: in domain `Page`, the first event named
`screencastVisibilityChanged` has stray backticks stripped from its
description (`None` is first replaced by the empty string). -/
def patchScreencastEvent (e : GEvent) : GEvent :=
  { e with description := some (stripBackticks (e.description.getD "")) }

/-- Patch 3: in domain `Network`, every type with id `Cookie` has its
first property named `expires` marked optional. -/
def patchCookieType (t : GType) : GType :=
  if t.id = "Cookie" then
    { t with properties :=
        (patchFirst (fun pr => pr.name = "expires")
          (fun pr => { pr with optional := true }) t.properties) }
  else t

/-- The per-domain dispatch of `fix_protocol_spec` (the
`if/elif` chain on `domain.domain`). -/
def patchDomain (d : GDomain) : GDomain :=
  if d.domain = "DOM" then
    { d with commands :=
        (patchFirst (fun c => c.name = "resolveNode") patchResolveNode
          d.commands) }
  else if d.domain = "Page" then
    { d with events :=
        (patchFirst (fun e => e.name = "screencastVisibilityChanged")
          patchScreencastEvent d.events) }
  else if d.domain = "Network" then
    { d with types := d.types.map patchCookieType }
  else d

/-- `fix_protocol_spec`: apply the patch table to every parsed domain. -/
def fixProtocolSpec (ds : List GDomain) : List GDomain :=
  ds.map patchDomain

/-! ## Selector queries with stale-node retry (`tab.py`)

`Tab.query_selector_all` / `Tab.query_selector` send a
`DOM.querySelector(All)` command.  When the server answers, the answer
is either a node-id list (resp. node id), a `ProtocolException` whose
message contains "could not find node", or some other
`ProtocolException`.  Successive attempts of the same query are
modelled as the oracle `server : Nat → QueryAnswer`.

The retry state of the supplied root handle is the `__last` attribute
(`last` here) plus a count of `Element.update()` calls performed
(`updates`), so that "revalidates exactly once" is expressible. -/

inductive QueryAnswer (α : Type) where
  | ok (a : α) : QueryAnswer α
  | errNotFound : QueryAnswer α
  | errOther : QueryAnswer α
deriving DecidableEq, Repr

structure HandleState where
  last : Bool
  updates : Nat
deriving DecidableEq, Repr

/-- A call either returns a value or lets an exception propagate. -/
inductive Outcome (α : Type) where
  | ret (a : α) : Outcome α
  | raised : Outcome α
deriving DecidableEq, Repr

/-- `Tab.query_selector_all`, restricted to the node-id bookkeeping.
`rooted` is `_node is not None` (the query was rooted at a supplied
handle).  On "could not find node" with a rooted query: when the
`__last` marker is set, it is removed and `[]` is returned; otherwise
the handle is updated (revalidated), the marker is set, and the same
query is retried.  Any other exception on a rooted query is swallowed
(the code falls through with `node_ids == []`); on an unrooted query
the exception propagates. -/
def queryAll (rooted : Bool) (server : Nat → QueryAnswer (List Nat)) :
    Nat → HandleState → Outcome (List Nat) × HandleState
  | k, st =>
    match server k with
    | .ok ids => (.ret ids, st)
    | .errOther => if rooted then (.ret [], st) else (.raised, st)
    | .errNotFound =>
        if rooted then
          if st.last then (.ret [], { st with last := false })
          else
            queryAll rooted server (k + 1)
              { last := true, updates := st.updates + 1 }
        else (.raised, st)
  termination_by k st => if st.last then 0 else 1
  decreasing_by simp_all

/-- `Tab.query_selector`: same retry discipline, but a second
"could not find node" returns `None`, and an *unrooted*
"could not find node" also returns `None` (the extra `elif` branch);
`if not node_id: return None` treats a zero node id as not found. -/
def queryOne (rooted : Bool) (server : Nat → QueryAnswer Nat) :
    Nat → HandleState → Outcome (Option Nat) × HandleState
  | k, st =>
    match server k with
    | .ok id => (.ret (if id = 0 then none else some id), st)
    | .errOther => if rooted then (.ret none, st) else (.raised, st)
    | .errNotFound =>
        if rooted then
          if st.last then (.ret none, { st with last := false })
          else
            queryOne rooted server (k + 1)
              { last := true, updates := st.updates + 1 }
        else (.ret none, st)
  termination_by k st => if st.last then 0 else 1
  decreasing_by simp_all

/-! ## Text search (`tab.py`: `find_elements_by_text`,
`find_element_by_text`)

A search-result node carries its identity, its CDP node type, its
resolvable parent element (as known after the `update()` the code
performs when the parent is missing), and its full subtree text
(`el.text_all`). -/

inductive TNode where
  | mk (id : Nat) (nodeType : Nat) (parent : Option TNode) (textAll : String)

def TNode.id : TNode → Nat
  | .mk i _ _ _ => i

def TNode.nodeType : TNode → Nat
  | .mk _ t _ _ => t

def TNode.parent : TNode → Option TNode
  | .mk _ _ p _ => p

def TNode.textAll : TNode → String
  | .mk _ _ _ s => s

/-- The per-result step of `find_elements_by_text`: a text node
(node type 3) contributes `elem.parent or elem` — its parent element,
or the text node itself when it has no resolvable parent; any other
node contributes itself. -/
def replaceTextNode (e : TNode) : TNode :=
  if e.nodeType = 3 then e.parent.getD e else e

/-- The result list of `find_elements_by_text` over the search results
returned by `DOM.getSearchResults` (the iframe sweep contributes
further parents in the same way and is not modelled separately). -/
def findElementsByText (results : List TNode) : List TNode :=
  results.map replaceTextNode

/-- Python's `min(items, key=...)`: fold keeping the current minimum and
replacing it only on a strictly smaller key, so the *first* element
attaining the minimum wins. -/
def pyMinKey (key : α → Nat) : List α → Option α
  | [] => none
  | x :: xs =>
      some (xs.foldl (fun best y => if key y < key best then y else best) x)

/-- `Tab.find_element_by_text`: run the text search; on an empty result
return `None`; with `best_match` pick
`min(items, key=lambda el: abs(len(text) - len(el.text_all)))` — note
`text` is the argument *as passed*, not stripped — and otherwise return
the first result.  `return_enclosing_element` is accepted but never
read by the body. -/
def findElementByText (text : String) (bestMatch : Bool)
    (returnEnclosingElement : Bool) (results : List TNode) :
    Option TNode :=
  let items := findElementsByText results
  if items.isEmpty then none
  else if bestMatch then
    pyMinKey (fun el => Nat.dist text.length el.textAll.length) items
  else items.head?

/-- Python's `str.strip()`: drop whitespace from both ends. -/
def pyStrip (s : String) : String :=
  ⟨((s.data.dropWhile Char.isWhitespace).reverse.dropWhile
      Char.isWhitespace).reverse⟩

/-- The selection the claim describes (spec wording, for comparison):
the element whose subtree text length is closest to the length of the
*stripped* query text, earliest result on ties. -/
def bestMatchSpec (text : String) (items : List TNode) : Option TNode :=
  pyMinKey (fun el => Nat.dist (pyStrip text).length el.textAll.length) items

/-- The earliest minimizer of `key`, by structural recursion: on a tie
the earlier element wins.  Reference characterization for the
first-wins behaviour of `pyMinKey`. -/
def firstMinBy (key : α → Nat) : List α → Option α
  | [] => none
  | x :: xs =>
      match firstMinBy key xs with
      | none => some x
      | some m => some (if key x ≤ key m then x else m)

/-! # Theorems -/

/-- **C6** (counterexample): `Element.__eq__` never consults the
session.  Two handles with the same (non-zero) backend node id but
attached to different tabs compare equal, where the claim says handles
in different sessions are never equal. -/
theorem c6_counterexample :
    elemEq ⟨5, 1⟩ ⟨5, 2⟩ = true
    ∧ (MElem.mk 5 1).tabId ≠ (MElem.mk 5 2).tabId := by
  constructor
  · decide
  · decide

/-- **C6** (amended): two element handles are equal iff both backend
node ids are defined (non-zero, Python truthiness) and equal — the
session the handles belong to plays no role. -/
theorem c6_eq_iff_backend_ids (a b : MElem) :
    elemEq a b = true ↔
      a.backendNodeId ≠ 0 ∧ b.backendNodeId ≠ 0
        ∧ a.backendNodeId = b.backendNodeId := by
  unfold elemEq
  by_cases hb : b.backendNodeId ≠ 0 ∧ a.backendNodeId ≠ 0
  · rw [if_pos hb]
    simp only [decide_eq_true_eq]
    constructor
    · intro h
      exact ⟨hb.2, hb.1, h.symm⟩
    · intro h
      exact h.2.2.symm
  · rw [if_neg hb]
    constructor
    · intro h
      exact absurd h (by simp)
    · intro h
      exact absurd ⟨h.2.1, h.1⟩ hb

/-- **C10** (confirmed): at the public `Element.get` interface, an
attribute that is present with a falsy (empty-string) value is
indistinguishable from an absent attribute: `get` returns `None`
exactly when the attribute is absent from the attrs map or stored with
value `""`; in particular `href=""` and no `href` at all give the same
answer. -/
theorem c10_get_falsy_is_none (flat : List String) (name : String) :
    (elementGet (makeAttrs flat) name = none ↔
      attrsGet (makeAttrs flat) name = none
        ∨ attrsGet (makeAttrs flat) name = some "")
    ∧ elementGet (makeAttrs ["href", ""]) "href" = none
    ∧ elementGet (makeAttrs []) "href" = none := by
  refine ⟨?_, rfl, rfl⟩
  unfold elementGet
  cases h : attrsGet (makeAttrs flat) name with
  | none => simp
  | some v =>
      by_cases hv : v = "" <;> simp [hv]

/-- **C3** (confirmed): the loader accepts a schema document iff its
version is major `"1"`, minor `"3"`; any other version (for example
minor `"2"`) aborts with the assertion error before any domain object
is produced, and on success the domains are exactly the document's. -/
theorem c3_version_gate (doc : SchemaDoc) :
    ((parse doc).isOk ↔
      doc.version.major = "1" ∧ doc.version.minor = "3")
    ∧ parse { version := { major := "1", minor := "2" },
              domains := doc.domains }
        = .error "AssertionError: version mismatch"
    ∧ (∀ ds, parse doc = .ok ds → ds = doc.domains) := by
  refine ⟨?_, rfl, ?_⟩
  · unfold parse
    by_cases h : doc.version.major = "1" ∧ doc.version.minor = "3" <;>
      simp [h, Except.isOk, Except.toBool]
  · intro ds h
    unfold parse at h
    by_cases hv : doc.version.major = "1" ∧ doc.version.minor = "3"
    · rw [if_pos hv] at h
      injection h with h
      exact h.symm
    · rw [if_neg hv] at h
      exact absurd h (by simp)

/-- **C3** witness: the version-(1,3) document is accepted and returns
its own domain list. -/
theorem c3_version_gate_witness :
    (parse { version := { major := "1", minor := "3" },
             domains := [] }).isOk = true
    ∧ ([] : List GDomain) = [] := by
  have h := c3_version_gate { version := { major := "1", minor := "3" },
                              domains := [] }
  exact ⟨h.1.mpr ⟨rfl, rfl⟩, h.2.2 [] rfl⟩

/-- **C9** (counterexample): `find_element_by_text` accepts
`return_enclosing_element` but its body never reads it, so passing
`False` does *not* return the text node itself: a text-node search
result is still replaced by its parent element. -/
theorem c9_counterexample :
    findElementByText "x" false false
        [TNode.mk 1 3 (some (TNode.mk 2 1 none "x")) "x"]
      = some (TNode.mk 2 1 none "x")
    ∧ (TNode.mk 2 1 none "x").id
        ≠ (TNode.mk 1 3 (some (TNode.mk 2 1 none "x")) "x").id := by
  constructor
  · rfl
  · decide

/-- **C9** (amended): a text-node (node type 3) search result is
*always* replaced by its parent element — the `return_enclosing_element`
flag is accepted but has no effect on the result — and a text node with
no resolvable parent is returned as itself; non-text nodes are returned
unchanged. -/
theorem c9_text_node_replaced (text : String) (bm r1 r2 : Bool)
    (results : List TNode) :
    findElementByText text bm r1 results
      = findElementByText text bm r2 results
    ∧ ∀ e ∈ results,
        (e.nodeType = 3 → replaceTextNode e = e.parent.getD e)
        ∧ (e.nodeType = 3 → e.parent = none → replaceTextNode e = e)
        ∧ (e.nodeType ≠ 3 → replaceTextNode e = e) := by
  refine ⟨rfl, ?_⟩
  intro e _
  refine ⟨?_, ?_, ?_⟩
  · intro h3
    unfold replaceTextNode
    rw [if_pos h3]
  · intro h3 hp
    unfold replaceTextNode
    rw [if_pos h3, hp]
    rfl
  · intro h3
    unfold replaceTextNode
    rw [if_neg h3]

/-- **C9** witness: a parentless text node comes back as itself, and a
non-text node as itself. -/
theorem c9_text_node_replaced_witness :
    replaceTextNode (TNode.mk 1 3 none "t") = TNode.mk 1 3 none "t"
    ∧ replaceTextNode (TNode.mk 2 1 none "t") = TNode.mk 2 1 none "t" := by
  have h := (c9_text_node_replaced "t" false true false
      [TNode.mk 1 3 none "t", TNode.mk 2 1 none "t"]).2
  exact ⟨(h (TNode.mk 1 3 none "t") (by simp)).2.1 rfl rfl,
         (h (TNode.mk 2 1 none "t") (by simp)).2.2 (by decide)⟩

/-- **C2** (confirmed): a selector query rooted at a user-supplied
element handle that hits "could not find node" revalidates the handle
exactly once (one `update()`, the `__last` marker set) and retries the
same query; when the retry hits the same error the call returns the
empty result (`[]` for `query_selector_all`, `None` for
`query_selector`) instead of raising, and the marker is cleared. -/
theorem c2_stale_node_retry (server : Nat → QueryAnswer (List Nat))
    (serverOne : Nat → QueryAnswer Nat) (st : HandleState)
    (h0 : st.last = false) :
    (server 0 = .errNotFound →
       queryAll true server 0 st
         = queryAll true server 1 { last := true, updates := st.updates + 1 })
    ∧ (server 0 = .errNotFound → server 1 = .errNotFound →
       queryAll true server 0 st
         = (.ret [], { last := false, updates := st.updates + 1 }))
    ∧ (serverOne 0 = .errNotFound →
       queryOne true serverOne 0 st
         = queryOne true serverOne 1 { last := true, updates := st.updates + 1 })
    ∧ (serverOne 0 = .errNotFound → serverOne 1 = .errNotFound →
       queryOne true serverOne 0 st
         = (.ret none, { last := false, updates := st.updates + 1 })) := by
  refine ⟨?_, ?_, ?_, ?_⟩
  · intro hf
    rw [queryAll, hf]
    simp [h0]
  · intro hf hf2
    rw [queryAll, hf]
    simp only [h0]
    rw [queryAll, hf2]
    simp
  · intro hf
    rw [queryOne, hf]
    simp [h0]
  · intro hf hf2
    rw [queryOne, hf]
    simp only [h0]
    rw [queryOne, hf2]
    simp

/-- **C2** witness: with the server failing both attempts, the rooted
query performs one revalidation and returns empty with the marker
cleared. -/
theorem c2_stale_node_retry_witness :
    queryAll true (fun _ => QueryAnswer.errNotFound) 0 ⟨false, 0⟩
      = (.ret [], ⟨false, 1⟩)
    ∧ queryOne true (fun _ => QueryAnswer.errNotFound) 0 ⟨false, 0⟩
      = (.ret none, ⟨false, 1⟩) := by
  have h := c2_stale_node_retry (fun _ => QueryAnswer.errNotFound)
      (fun _ => QueryAnswer.errNotFound) ⟨false, 0⟩ rfl
  exact ⟨h.2.1 rfl rfl, h.2.2.2 rfl rfl⟩

/-- When no required parameter's argument is absent, the dict built by
the generated assignments is exactly the wire encoding of the
non-absent arguments, keyed by the original CDP parameter names. -/
theorem buildParams_eq_filterMap : ∀ (ps : List PropSpec) (vs : List PyArg),
    (∀ pv ∈ ps.zip vs, pv.1.optional = false → pv.2.isAbsent = false) →
    buildParams ps vs
      = (ps.zip vs).filterMap
          (fun pv => if pv.2.isAbsent then none
            else some (pv.1.name, encodeArg pv.2))
  | [], vs, _ => by cases vs <;> rfl
  | p :: ps, [], _ => rfl
  | p :: ps, v :: vs, h => by
      have htail := buildParams_eq_filterMap ps vs
        (fun pv hpv => h pv (List.mem_cons_of_mem _ hpv))
      have hhead := h (p, v) (List.mem_cons_self _ _)
      unfold buildParams
      by_cases hopt : p.optional
      · by_cases habs : v.isAbsent
        · simp [hopt, habs, htail, List.filterMap, List.zip]
        · simp [hopt, habs, htail, List.filterMap, List.zip]
      · have habs : v.isAbsent = false := hhead (by simpa using hopt)
        simp [hopt, habs, htail, List.filterMap, List.zip]

/-- **C1** (confirmed): a generated command coroutine, invoked with
caller arguments (none of the required ones absent), yields exactly one
request before returning; its `method` is `Domain.name`; its `params`
entry is present iff the command declares at least one parameter, and
when present it holds exactly the wire encodings of the non-absent
arguments keyed by the original CDP parameter names. -/
theorem c1_command_yields_one (c : Command) (args : List PyArg)
    (hreq : ∀ pv ∈ c.parameters.zip args,
      pv.1.optional = false → pv.2.isAbsent = false) :
    (commandYields c args).length = 1
    ∧ ∀ r ∈ commandYields c args,
        r.method = c.domain ++ "." ++ c.name
        ∧ (r.params.isSome ↔ c.parameters ≠ [])
        ∧ r.params
            = (if c.parameters = [] then none
               else some ((c.parameters.zip args).filterMap
                 (fun pv => if pv.2.isAbsent then none
                   else some (pv.1.name, encodeArg pv.2)))) := by
  refine ⟨rfl, ?_⟩
  intro r hr
  unfold commandYields at hr
  rw [List.mem_singleton] at hr
  subst hr
  refine ⟨rfl, ?_, ?_⟩
  · by_cases hps : c.parameters = [] <;>
      simp [hps, List.isEmpty_iff]
  · by_cases hps : c.parameters = []
    · simp [hps, List.isEmpty_iff]
    · simp only [List.isEmpty_iff, hps, if_neg]
      rw [buildParams_eq_filterMap c.parameters args hreq]

/-- **C1** witness: `DOM.resolveNode` invoked with a concrete node id
and the optional argument left out yields the single request
`{'method': 'DOM.resolveNode', 'params': {'nodeId': 7}}`. -/
theorem c1_command_yields_one_witness :
    (commandYields
        ⟨"DOM", "resolveNode",
          [⟨"nodeId", false⟩, ⟨"objectGroup", true⟩]⟩
        [.prim (.num 7), .absent]).length = 1
    ∧ ∀ r ∈ commandYields
        ⟨"DOM", "resolveNode",
          [⟨"nodeId", false⟩, ⟨"objectGroup", true⟩]⟩
        [.prim (.num 7), .absent],
        r.method = "DOM.resolveNode"
        ∧ r.params = some [("nodeId", JVal.num 7)] := by
  have h := c1_command_yields_one
      ⟨"DOM", "resolveNode", [⟨"nodeId", false⟩, ⟨"objectGroup", true⟩]⟩
      [.prim (.num 7), .absent]
      (by
        intro pv hpv hopt
        rcases List.mem_cons.mp hpv with he | he
        · subst he; rfl
        · rcases List.mem_cons.mp he with he2 | he2
          · subst he2; cases hopt
          · cases he2)
  refine ⟨h.1, ?_⟩
  intro r hr
  have h2 := h.2 r hr
  refine ⟨h2.1, ?_⟩
  rw [h2.2.2]
  rfl

/-- **C5** (counterexample): `snake_case` appends an underscore only
when the converted name shadows a Python *builtin*
(`getattr(builtins, name)`), not a reserved keyword: `class` is a
keyword but not a `builtins` attribute, so a property named `class`
keeps the field name `class` — not `class_` as claimed. -/
theorem c5_counterexample :
    snakeCase "class" = "class" ∧ snakeCase "class" ≠ "class_" := by
  constructor
  · rfl
  · decide

/-- **C5** (amended): a property or parameter name becomes its
lower-snake conversion, with a trailing underscore appended exactly
when the converted name shadows a Python builtin (an attribute of the
`builtins` module); `type` yields `type_`, while `class` — a reserved
keyword but not a builtin — yields `class`; the generated `to_json`
assignments key the wire dict by the original CDP name regardless
(shown here for a required and an optional parameter). -/
theorem c5_snake_case_builtins (name : String) (v : PyArg) (j : JVal) :
    snakeCase name
      = (if isBuiltin (underscore name) then underscore name ++ "_"
         else underscore name)
    ∧ snakeCase "type" = "type_"
    ∧ snakeCase "class" = "class"
    ∧ buildParams [⟨"type", false⟩] [v] = [("type", encodeArg v)]
    ∧ buildParams [⟨"class", false⟩] [v] = [("class", encodeArg v)]
    ∧ buildParams [⟨"type", true⟩] [.prim j]
        = [("type", encodeArg (.prim j))] := by
  refine ⟨rfl, rfl, rfl, ?_, ?_, rfl⟩
  · unfold buildParams
    rfl
  · unfold buildParams
    rfl

/-- **C4** (counterexample): the generated `from_json` for an optional
property evaluates `... if json.get(name, None) is not None else None`,
so a wire dict with the optional key present and bound to `null` is
*decoded* to the absent value — not rejected as a protocol error as
claimed. -/
theorem c4_counterexample :
    propFromJson ⟨"expires", true⟩ [("expires", JVal.null)]
      = Except.ok none := by
  rfl

/-- Keys emitted by the generated `to_json` assignments all come from
the property list. -/
theorem buildParams_keys_subset : ∀ (ps : List PropSpec) (vs : List PyArg),
    ∀ k ∈ (buildParams ps vs).map Prod.fst, k ∈ ps.map PropSpec.name
  | [], vs, k => by cases vs <;> simp [buildParams]
  | p :: ps, [], k => by simp [buildParams]
  | p :: ps, v :: vs, k => by
      intro hk
      unfold buildParams at hk
      by_cases hopt : p.optional
      · by_cases habs : v.isAbsent
        · rw [if_pos hopt, if_pos habs] at hk
          exact List.mem_cons_of_mem _
            (buildParams_keys_subset ps vs k hk)
        · rw [if_pos hopt, if_neg (by simp [habs])] at hk
          rcases List.mem_cons.mp hk with he | he
          · simp [he]
          · exact List.mem_cons_of_mem _
              (buildParams_keys_subset ps vs k he)
      · rw [if_neg hopt] at hk
        rcases List.mem_cons.mp hk with he | he
        · simp [he]
        · exact List.mem_cons_of_mem _
            (buildParams_keys_subset ps vs k he)

/-- An absent optional field is not emitted at all by the generated
`to_json`: its key does not occur in the output keys. -/
theorem buildParams_absent_not_mem :
    ∀ (ps : List PropSpec) (vs : List PyArg) (p : PropSpec) (v : PyArg),
    (ps.map PropSpec.name).Nodup →
    (p, v) ∈ ps.zip vs → p.optional = true → v.isAbsent = true →
    p.name ∉ (buildParams ps vs).map Prod.fst
  | [], vs, p, v => by cases vs <;> simp
  | q :: ps, [], p, v => by simp [List.zip]
  | q :: ps, w :: vs, p, v => by
      intro hnd hmem hopt habs
      have hnd1 : q.name ∉ ps.map PropSpec.name := (List.nodup_cons.mp hnd).1
      have hnd2 : (ps.map PropSpec.name).Nodup := (List.nodup_cons.mp hnd).2
      rcases List.mem_cons.mp hmem with he | he
      · -- the pair is the head: it is skipped, and its name is not
        -- among the remaining properties
        have hpq : p = q := congrArg Prod.fst he
        have hvw : v = w := congrArg Prod.snd he
        subst hpq
        subst hvw
        unfold buildParams
        rw [if_pos hopt, if_pos habs]
        intro hk
        exact hnd1 (buildParams_keys_subset ps vs p.name hk)
      · -- the pair is in the tail: the head's key (if emitted) is a
        -- different name, and the tail is handled by induction
        have hp_mem : p ∈ ps := (List.of_mem_zip he).1
        have hqp : q.name ≠ p.name := by
          intro hq
          exact hnd1 (hq ▸ List.mem_map_of_mem PropSpec.name hp_mem)
        have htail := buildParams_absent_not_mem ps vs p v hnd2 he hopt habs
        unfold buildParams
        by_cases hqopt : q.optional
        · by_cases hwabs : w.isAbsent
          · rw [if_pos hqopt, if_pos hwabs]
            exact htail
          · rw [if_pos hqopt, if_neg (by simp [hwabs])]
            intro hk
            rcases List.mem_cons.mp hk with hh | hh
            · exact hqp hh.symm
            · exact htail hh
        · rw [if_neg hqopt]
          intro hk
          rcases List.mem_cons.mp hk with hh | hh
          · exact hqp hh.symm
          · exact htail hh

/-- A key that does not occur in the emitted keys is not found by
dict lookup. -/
theorem dictGet_eq_none_of_not_mem (fields : List (String × JVal))
    (key : String) (h : key ∉ fields.map Prod.fst) :
    dictGet fields key = none := by
  unfold dictGet
  rw [List.find?_eq_none.mpr]
  · rfl
  · intro kv hkv
    simp only [decide_eq_true_eq]
    intro hk
    exact h (hk ▸ List.mem_map_of_mem Prod.fst (List.mem_reverse.mp hkv))

/-- **C4** (amended): for a generated object type, an instance whose
optional field is absent produces a `to_json` output in which that key
is absent; and a wire dict in which an optional key is present with
value `null` is decoded by `from_json` to the absent value (`None`),
exactly as when the key is missing — it is not rejected. -/
theorem c4_optional_codec (ps : List PropSpec) (vs : List PyArg)
    (p : PropSpec) (v : PyArg) (json : List (String × JVal)) :
    ((ps.map PropSpec.name).Nodup → (p, v) ∈ ps.zip vs →
      p.optional = true → v.isAbsent = true →
      dictGet (buildParams ps vs) p.name = none)
    ∧ (p.optional = true → dictGet json p.name = some JVal.null →
      propFromJson p json = .ok none)
    ∧ (p.optional = true → dictGet json p.name = none →
      propFromJson p json = .ok none) := by
  refine ⟨?_, ?_, ?_⟩
  · intro hnd hmem hopt habs
    exact dictGet_eq_none_of_not_mem _ _
      (buildParams_absent_not_mem ps vs p v hnd hmem hopt habs)
  · intro hopt hj
    unfold propFromJson
    rw [if_pos hopt, hj]
  · intro hopt hj
    unfold propFromJson
    rw [if_pos hopt, hj]

/-- **C4** witness: a `Cookie`-like type with optional `expires` left
absent emits no `expires` key, and decoding both a missing and a
present-`null` `expires` yields the absent value. -/
theorem c4_optional_codec_witness :
    dictGet (buildParams [⟨"name", false⟩, ⟨"expires", true⟩]
        [.prim (.str "sid"), .absent]) "expires" = none
    ∧ propFromJson ⟨"expires", true⟩ [("expires", JVal.null)] = .ok none
    ∧ propFromJson ⟨"expires", true⟩ [("name", JVal.str "sid")]
        = .ok none := by
  have h := c4_optional_codec [⟨"name", false⟩, ⟨"expires", true⟩]
      [.prim (.str "sid"), .absent] ⟨"expires", true⟩ .absent
      [("expires", JVal.null)]
  have h2 := c4_optional_codec ([] : List PropSpec) ([] : List PyArg)
      ⟨"expires", true⟩ .absent [("name", JVal.str "sid")]
  refine ⟨h.1 (by decide) (by simp [List.zip]) rfl rfl, h.2.1 rfl rfl, ?_⟩
  exact h2.2.2 rfl rfl

/-- Python's first-wins `min` fold computes the earliest minimizer. -/
theorem pyMinKey_foldl_eq (key : α → Nat) :
    ∀ (xs : List α) (x : α),
      (some (xs.foldl
          (fun best y => if key y < key best then y else best) x)
        : Option α)
        = firstMinBy key (x :: xs)
  | [], _ => rfl
  | y :: xs, x => by
      have ih := pyMinKey_foldl_eq key xs (if key y < key x then y else x)
      rw [List.foldl_cons, ih]
      cases hxs : firstMinBy key xs with
      | none =>
          simp only [firstMinBy, hxs]
          split_ifs <;> first | rfl | omega
      | some m =>
          simp only [firstMinBy, hxs]
          split_ifs <;> first | rfl | omega

theorem pyMinKey_eq_firstMinBy (key : α → Nat) (l : List α) :
    pyMinKey key l = firstMinBy key l := by
  cases l with
  | nil => rfl
  | cons x xs => exact pyMinKey_foldl_eq key xs x

/-- The earliest minimizer belongs to the list and minimizes the key. -/
theorem firstMinBy_spec (key : α → Nat) :
    ∀ (l : List α) (m : α), firstMinBy key l = some m →
      m ∈ l ∧ ∀ y ∈ l, key m ≤ key y
  | [], m => by intro h; cases h
  | x :: xs, m => by
      intro h
      unfold firstMinBy at h
      cases hxs : firstMinBy key xs with
      | none =>
          rw [hxs] at h
          injection h with h
          subst h
          have hnil : xs = [] := by
            cases xs with
            | nil => rfl
            | cons b bs =>
                exfalso
                unfold firstMinBy at hxs
                cases hbs : firstMinBy key bs <;> rw [hbs] at hxs <;>
                  cases hxs
          subst hnil
          exact ⟨List.mem_cons_self _ _, by
            intro y hy
            rcases List.mem_cons.mp hy with he | he
            · subst he; exact Nat.le_refl _
            · cases he⟩
      | some m2 =>
          rw [hxs] at h
          injection h with h
          have ih := firstMinBy_spec key xs m2 hxs
          by_cases hx : key x ≤ key m2
          · rw [if_pos hx] at h
            subst h
            refine ⟨List.mem_cons_self _ _, ?_⟩
            intro y hy
            rcases List.mem_cons.mp hy with he | he
            · subst he; exact Nat.le_refl _
            · exact Nat.le_trans hx (ih.2 y he)
          · rw [if_neg hx] at h
            subst h
            refine ⟨List.mem_cons_of_mem _ ih.1, ?_⟩
            intro y hy
            rcases List.mem_cons.mp hy with he | he
            · subst he; omega
            · exact ih.2 y he

/-- **C8** (counterexample): the best-match key is
`abs(len(text) - len(el.text_all))` with `text` *as passed*: for the
query `" a "` (length 3; stripped length 1) and candidates with subtree
texts of lengths 1 and 3, the code picks the length-3 candidate, while
the claim's stripped-length rule picks the length-1 candidate. -/
theorem c8_counterexample :
    (findElementByText " a " true true
        [TNode.mk 1 1 none "x", TNode.mk 2 1 none "xyz"]).map TNode.id
      = some 2
    ∧ (bestMatchSpec " a "
        (findElementsByText
          [TNode.mk 1 1 none "x", TNode.mk 2 1 none "xyz"])).map TNode.id
      = some 1
    ∧ (2 : Nat) ≠ 1 := by
  refine ⟨rfl, rfl, by decide⟩

/-- **C8** (amended): for a non-empty candidate list, the best-match
wrapper returns the earliest element whose full subtree text length
minimizes the absolute difference with the length of the query text
*as passed* (not stripped); ties are broken by search-result order
(`firstMinBy` structure), and any returned element is a candidate
attaining the minimum. -/
theorem c8_best_match_length (text : String) (ree : Bool)
    (results : List TNode) (h : results ≠ []) :
    findElementByText text true ree results
      = firstMinBy (fun el => Nat.dist text.length el.textAll.length)
          (findElementsByText results)
    ∧ ∀ m, findElementByText text true ree results = some m →
        m ∈ findElementsByText results
        ∧ ∀ y ∈ findElementsByText results,
            Nat.dist text.length m.textAll.length
              ≤ Nat.dist text.length y.textAll.length := by
  have hne : (findElementsByText results).isEmpty = false := by
    cases results with
    | nil => exact absurd rfl h
    | cons a as => rfl
  have h1 : findElementByText text true ree results
      = pyMinKey (fun el => Nat.dist text.length el.textAll.length)
          (findElementsByText results) := by
    unfold findElementByText
    simp only [hne]
    simp
  refine ⟨?_, ?_⟩
  · rw [h1, pyMinKey_eq_firstMinBy]
  · intro m hm
    rw [h1, pyMinKey_eq_firstMinBy] at hm
    exact firstMinBy_spec _ _ m hm

/-- **C8** witness: on a two-candidate list the best-match result is
the earliest minimizer. -/
theorem c8_best_match_length_witness :
    findElementByText "ab" true true
        [TNode.mk 1 1 none "ab", TNode.mk 2 1 none "abcd"]
      = firstMinBy (fun el => Nat.dist "ab".length el.textAll.length)
          (findElementsByText
            [TNode.mk 1 1 none "ab", TNode.mk 2 1 none "abcd"]) := by
  exact (c8_best_match_length "ab" true
      [TNode.mk 1 1 none "ab", TNode.mk 2 1 none "abcd"]
      (List.cons_ne_nil _ _)).1

theorem patchFirst_cons {α : Type} (p : α → Bool) (f : α → α) (x : α)
    (xs : List α) :
    patchFirst p f (x :: xs)
      = if p x then f x :: xs else x :: patchFirst p f xs := rfl

theorem modifyIdx_nil {α : Type} (f : α → α) (n : Nat) :
    modifyIdx f n ([] : List α) = [] := by
  cases n <;> rfl

theorem modifyIdx_succ_cons {α : Type} (f : α → α) (n : Nat) (x : α)
    (xs : List α) :
    modifyIdx f (n + 1) (x :: xs) = x :: modifyIdx f n xs := rfl

/-- `patchFirst` does not change the image under `g` of any element
when `f` is invisible to `g`. -/
theorem patchFirst_map {α β : Type} (p : α → Bool) (f : α → α) (g : α → β)
    (hg : ∀ x, g (f x) = g x) :
    ∀ l : List α, (patchFirst p f l).map g = l.map g
  | [] => rfl
  | x :: xs => by
      rw [patchFirst_cons]
      by_cases hx : p x
      · rw [if_pos hx]
        simp [hg x]
      · rw [if_neg hx]
        simp [patchFirst_map p f g hg xs]

/-- `patchFirst` is idempotent when `f` is idempotent and preserves the
predicate. -/
theorem patchFirst_idem {α : Type} (p : α → Bool) (f : α → α)
    (hp : ∀ x, p x = true → p (f x) = true)
    (hf : ∀ x, f (f x) = f x) :
    ∀ l : List α, patchFirst p f (patchFirst p f l) = patchFirst p f l
  | [] => rfl
  | x :: xs => by
      rw [patchFirst_cons]
      by_cases hx : p x
      · rw [if_pos hx, patchFirst_cons, if_pos (hp x hx), hf x]
      · rw [if_neg hx, patchFirst_cons, if_neg hx,
            patchFirst_idem p f hp hf xs]

/-- Finding by the same predicate after `patchFirst` returns the patched
first match, when `f` preserves the predicate. -/
theorem patchFirst_find {α : Type} (p : α → Bool) (f : α → α)
    (hp : ∀ x, p (f x) = p x) :
    ∀ l : List α, (patchFirst p f l).find? p = (l.find? p).map f
  | [] => rfl
  | x :: xs => by
      rw [patchFirst_cons]
      by_cases hx : p x
      · rw [if_pos hx, List.find?_cons_of_pos _ ((hp x).trans hx),
            List.find?_cons_of_pos _ hx]
        rfl
      · rw [if_neg hx, List.find?_cons_of_neg _ hx,
            List.find?_cons_of_neg _ hx]
        exact patchFirst_find p f hp xs

/-- `modifyIdx` is idempotent when `f` is. -/
theorem modifyIdx_idem {α : Type} (f : α → α) (hf : ∀ x, f (f x) = f x) :
    ∀ (n : Nat) (l : List α),
      modifyIdx f n (modifyIdx f n l) = modifyIdx f n l
  | n, [] => by rw [modifyIdx_nil, modifyIdx_nil]
  | 0, x :: xs => by
      show modifyIdx f 0 (f x :: xs) = f x :: xs
      show f (f x) :: xs = f x :: xs
      rw [hf x]
  | n + 1, x :: xs => by
      rw [modifyIdx_succ_cons, modifyIdx_succ_cons,
          modifyIdx_idem f hf n xs]

/-- Reading back the modified index. -/
theorem modifyIdx_get {α : Type} (f : α → α) :
    ∀ (n : Nat) (l : List α),
      (modifyIdx f n l).get? n = (l.get? n).map f
  | n, [] => by rw [modifyIdx_nil]; cases n <;> rfl
  | 0, x :: xs => rfl
  | n + 1, x :: xs => by
      rw [modifyIdx_succ_cons]
      simpa using modifyIdx_get f n xs

/-- Deleting all backticks twice is the same as deleting them once. -/
theorem stripBackticks_idem (s : String) :
    stripBackticks (stripBackticks s) = stripBackticks s := by
  unfold stripBackticks
  simp [List.filter_filter]

theorem patchResolveNode_idem (c : GCommand) :
    patchResolveNode (patchResolveNode c) = patchResolveNode c := by
  unfold patchResolveNode
  have h := modifyIdx_idem
      (fun q : GProp => { q with ref := some "BackendNodeId" })
      (fun q => rfl) 1 c.parameters
  exact congrArg (fun ps => GCommand.mk c.name ps) h

theorem patchScreencastEvent_idem (e : GEvent) :
    patchScreencastEvent (patchScreencastEvent e) = patchScreencastEvent e := by
  unfold patchScreencastEvent
  exact congrArg (fun d => { e with description := some d })
    (stripBackticks_idem _)

theorem patchCookieType_idem (t : GType) :
    patchCookieType (patchCookieType t) = patchCookieType t := by
  unfold patchCookieType
  by_cases h : t.id = "Cookie"
  · rw [if_pos h, if_pos h]
    have hidem := patchFirst_idem
        (fun pr : GProp => pr.name = "expires")
        (fun pr => { pr with optional := true })
        (fun q hq => hq) (fun q => rfl) t.properties
    exact congrArg (fun ps => GType.mk t.id ps) hidem
  · rw [if_neg h, if_neg h]

theorem patchDomain_domain (d : GDomain) :
    (patchDomain d).domain = d.domain := by
  unfold patchDomain
  split_ifs <;> rfl

theorem patchDomain_idem (d : GDomain) :
    patchDomain (patchDomain d) = patchDomain d := by
  by_cases h1 : d.domain = "DOM"
  · have hstep : patchDomain d
        = { d with commands :=
            (patchFirst (fun c => c.name = "resolveNode") patchResolveNode
              d.commands) } := by
      unfold patchDomain
      rw [if_pos h1]
    rw [hstep]
    unfold patchDomain
    rw [if_pos h1]
    exact congrArg (fun cs => { d with commands := cs })
      (patchFirst_idem (fun c : GCommand => c.name = "resolveNode")
        patchResolveNode (fun c hc => hc) patchResolveNode_idem d.commands)
  · by_cases h2 : d.domain = "Page"
    · have hstep : patchDomain d
          = { d with events :=
              (patchFirst (fun e => e.name = "screencastVisibilityChanged")
                patchScreencastEvent d.events) } := by
        unfold patchDomain
        rw [if_neg h1, if_pos h2]
      rw [hstep]
      unfold patchDomain
      rw [if_neg h1, if_pos h2]
      exact congrArg (fun es => { d with events := es })
        (patchFirst_idem
          (fun e : GEvent => e.name = "screencastVisibilityChanged")
          patchScreencastEvent (fun e he => he) patchScreencastEvent_idem
          d.events)
    · by_cases h3 : d.domain = "Network"
      · have hstep : patchDomain d
            = { d with types := d.types.map patchCookieType } := by
          unfold patchDomain
          rw [if_neg h1, if_neg h2, if_pos h3]
        rw [hstep]
        unfold patchDomain
        rw [if_neg h1, if_neg h2, if_pos h3]
        refine congrArg (fun ts => { d with types := ts }) ?_
        rw [List.map_map]
        exact List.map_congr_left (fun t _ => patchCookieType_idem t)
      · have hstep : patchDomain d = d := by
          unfold patchDomain
          rw [if_neg h1, if_neg h2, if_neg h3]
        rw [hstep, hstep]

/-- **C7** (confirmed): the upstream-spec patch table is idempotent —
applying `fix_protocol_spec` twice to a parsed domain list equals
applying it once; patching never duplicates or removes a property (the
per-type property-name lists are unchanged); after one application the
first `expires` property of every `Network.Cookie` type is optional,
and the second parameter of the first `DOM.resolveNode` command has
`$ref` `BackendNodeId`.  (By idempotence the same holds after two
applications.) -/
theorem c7_patch_idempotent (ds : List GDomain) :
    fixProtocolSpec (fixProtocolSpec ds) = fixProtocolSpec ds
    ∧ (∀ d ∈ ds,
        (patchDomain d).types.map
            (fun t => (t.id, t.properties.map GProp.name))
          = d.types.map (fun t => (t.id, t.properties.map GProp.name)))
    ∧ (∀ d ∈ fixProtocolSpec ds, d.domain = "Network" →
        ∀ t ∈ d.types, t.id = "Cookie" →
        ∀ pr, t.properties.find? (fun q => q.name = "expires") = some pr →
          pr.optional = true)
    ∧ (∀ d ∈ fixProtocolSpec ds, d.domain = "DOM" →
        ∀ c, d.commands.find? (fun c => c.name = "resolveNode") = some c →
        ∀ q, c.parameters.get? 1 = some q →
          q.ref = some "BackendNodeId") := by
  refine ⟨?_, ?_, ?_, ?_⟩
  · unfold fixProtocolSpec
    rw [List.map_map]
    exact List.map_congr_left (fun d _ => patchDomain_idem d)
  · intro d _
    unfold patchDomain
    by_cases h1 : d.domain = "DOM"
    · rw [if_pos h1]
    · rw [if_neg h1]
      by_cases h2 : d.domain = "Page"
      · rw [if_pos h2]
      · rw [if_neg h2]
        by_cases h3 : d.domain = "Network"
        · rw [if_pos h3]
          show (d.types.map patchCookieType).map _ = _
          rw [List.map_map]
          refine List.map_congr_left (fun t _ => ?_)
          show ((patchCookieType t).id,
              (patchCookieType t).properties.map GProp.name)
            = (t.id, t.properties.map GProp.name)
          unfold patchCookieType
          by_cases hc : t.id = "Cookie"
          · rw [if_pos hc]
            have hm := patchFirst_map
                (fun pr : GProp => pr.name = "expires")
                (fun pr => { pr with optional := true })
                GProp.name (fun q => rfl) t.properties
            show (t.id, _) = (t.id, t.properties.map GProp.name)
            rw [hm]
          · rw [if_neg hc]
        · rw [if_neg h3]
  · intro d hd hnet t ht hcookie pr hfind
    unfold fixProtocolSpec at hd
    rcases List.mem_map.mp hd with ⟨d0, hd0, rfl⟩
    have hdom : d0.domain = "Network" := by
      rw [← patchDomain_domain d0]; exact hnet
    have h1 : ¬d0.domain = "DOM" := by rw [hdom]; decide
    have h2 : ¬d0.domain = "Page" := by rw [hdom]; decide
    have hstep : patchDomain d0
        = { d0 with types := d0.types.map patchCookieType } := by
      unfold patchDomain
      rw [if_neg h1, if_neg h2, if_pos hdom]
    rw [hstep] at ht
    rcases List.mem_map.mp ht with ⟨t0, _, rfl⟩
    have hid : t0.id = "Cookie" := by
      by_cases h : t0.id = "Cookie"
      · exact h
      · unfold patchCookieType at hcookie
        rw [if_neg h] at hcookie
        exact hcookie
    have hstep2 : patchCookieType t0
        = { t0 with properties :=
            (patchFirst (fun pr => pr.name = "expires")
              (fun pr => { pr with optional := true }) t0.properties) } := by
      unfold patchCookieType
      rw [if_pos hid]
    rw [hstep2] at hfind
    have hfind2 :
        (patchFirst (fun pr : GProp => pr.name = "expires")
            (fun pr => { pr with optional := true })
            t0.properties).find? (fun q => q.name = "expires")
          = some pr := hfind
    rw [patchFirst_find (fun pr : GProp => pr.name = "expires")
        (fun pr => { pr with optional := true }) (fun x => rfl)
        t0.properties] at hfind2
    rcases Option.map_eq_some'.mp hfind2 with ⟨pr0, _, rfl⟩
    rfl
  · intro d hd hdomc c hfind q hq
    unfold fixProtocolSpec at hd
    rcases List.mem_map.mp hd with ⟨d0, hd0, rfl⟩
    have hdom : d0.domain = "DOM" := by
      rw [← patchDomain_domain d0]; exact hdomc
    have hstep : patchDomain d0
        = { d0 with commands :=
            (patchFirst (fun c => c.name = "resolveNode") patchResolveNode
              d0.commands) } := by
      unfold patchDomain
      rw [if_pos hdom]
    rw [hstep] at hfind
    have hfind2 :
        (patchFirst (fun c : GCommand => c.name = "resolveNode")
            patchResolveNode d0.commands).find?
            (fun c => c.name = "resolveNode")
          = some c := hfind
    rw [patchFirst_find (fun c : GCommand => c.name = "resolveNode")
        patchResolveNode (fun x => rfl) d0.commands] at hfind2
    rcases Option.map_eq_some'.mp hfind2 with ⟨c0, _, rfl⟩
    have hq2 : (modifyIdx
        (fun p : GProp => { p with ref := some "BackendNodeId" }) 1
        c0.parameters).get? 1 = some q := hq
    rw [modifyIdx_get] at hq2
    rcases Option.map_eq_some'.mp hq2 with ⟨q0, _, rfl⟩
    rfl

/-- **C7** witness: on a concrete two-domain schema the patch table is
idempotent, the patched `Cookie.expires` is optional, and the patched
second `resolveNode` parameter refers to `BackendNodeId`. -/
theorem c7_patch_idempotent_witness :
    fixProtocolSpec (fixProtocolSpec
        [⟨"Network", [⟨"Cookie", [⟨"expires", none, false⟩]⟩], [], []⟩,
         ⟨"DOM", [],
          [⟨"resolveNode", [⟨"nodeId", some "NodeId", false⟩,
            ⟨"objectGroup", some "ObjectGroup", false⟩]⟩], []⟩])
      = fixProtocolSpec
        [⟨"Network", [⟨"Cookie", [⟨"expires", none, false⟩]⟩], [], []⟩,
         ⟨"DOM", [],
          [⟨"resolveNode", [⟨"nodeId", some "NodeId", false⟩,
            ⟨"objectGroup", some "ObjectGroup", false⟩]⟩], []⟩]
    ∧ (⟨"expires", none, true⟩ : GProp).optional = true
    ∧ (⟨"objectGroup", some "BackendNodeId", false⟩ : GProp).ref
        = some "BackendNodeId" := by
  have h := c7_patch_idempotent
      [⟨"Network", [⟨"Cookie", [⟨"expires", none, false⟩]⟩], [], []⟩,
       ⟨"DOM", [],
        [⟨"resolveNode", [⟨"nodeId", some "NodeId", false⟩,
          ⟨"objectGroup", some "ObjectGroup", false⟩]⟩], []⟩]
  refine ⟨h.1, ?_, ?_⟩
  · exact h.2.2.1
      (patchDomain
        ⟨"Network", [⟨"Cookie", [⟨"expires", none, false⟩]⟩], [], []⟩)
      (List.mem_cons_self _ _) rfl
      ⟨"Cookie", [⟨"expires", none, true⟩]⟩ (by simp [patchDomain]; rfl)
      rfl ⟨"expires", none, true⟩ rfl
  · exact h.2.2.2
      (patchDomain
        ⟨"DOM", [],
          [⟨"resolveNode", [⟨"nodeId", some "NodeId", false⟩,
            ⟨"objectGroup", some "ObjectGroup", false⟩]⟩], []⟩)
      (by simp [fixProtocolSpec]) rfl
      ⟨"resolveNode", [⟨"nodeId", some "NodeId", false⟩,
        ⟨"objectGroup", some "BackendNodeId", false⟩]⟩ rfl
      ⟨"objectGroup", some "BackendNodeId", false⟩ rfl

end Zendriver
